import Mathlib

/-!
Shallow embedding of the two rate limiters of this repository
(`src/rate_limiter.py` and `src/rate_limiter_throttling.py`) and proofs of
the spec's claims about them.

Modelling choices:
* Timestamps and durations are rationals (`ℚ`); Python reads `time.time()`
  inside each operation, so every operation here takes the current instant
  explicitly as an argument (spec §5: each operation reads the clock once).
* A Python `dict` is modelled as an association list with unique keys;
  `lookupKey`, `setKey`, `eraseKey` mirror `d[k]` / `d[k] = v` / `del d[k]`.
* A `deque[float]` is a `List ℚ` (front of the deque = head of the list);
  the cleanup loop `while dq and dq[0] < ws: dq.popleft()` is
  `List.dropWhile (· < ws)`.
-/

/-- `d.get(k)` / `k in d` on an association list. -/
def lookupKey {α : Type} : List (String × α) → String → Option α
  | [], _ => none
  | (k', v) :: rest, k => if k' = k then some v else lookupKey rest k

/-- `d[k] = v`: replace the binding of `k` if present, else append it. -/
def setKey {α : Type} : List (String × α) → String → α → List (String × α)
  | [], k, v => [(k, v)]
  | (k', v') :: rest, k, v =>
      if k' = k then (k, v) :: rest else (k', v') :: setKey rest k v

/-- `del d[k]`: remove the binding of `k` (the first one, if any). -/
def eraseKey {α : Type} : List (String × α) → String → List (String × α)
  | [], _ => []
  | (k', v') :: rest, k => if k' = k then rest else (k', v') :: eraseKey rest k

@[simp] theorem lookupKey_nil {α : Type} (k : String) :
    lookupKey ([] : List (String × α)) k = none := rfl

@[simp] theorem lookupKey_cons {α : Type} (k' : String) (v : α) (rest : List (String × α))
    (k : String) :
    lookupKey ((k', v) :: rest) k = if k' = k then some v else lookupKey rest k := rfl

theorem lookupKey_setKey_self {α : Type} (l : List (String × α)) (k : String) (v : α) :
    lookupKey (setKey l k v) k = some v := by
  induction l with
  | nil => simp [setKey]
  | cons hd tl ih =>
      obtain ⟨k', v'⟩ := hd
      by_cases h : k' = k <;> simp [setKey, h, ih]

theorem lookupKey_setKey_ne {α : Type} (l : List (String × α)) (k k' : String) (v : α)
    (h : k ≠ k') : lookupKey (setKey l k v) k' = lookupKey l k' := by
  induction l with
  | nil => simp [setKey, h]
  | cons hd tl ih =>
      obtain ⟨k₀, v₀⟩ := hd
      by_cases h₀ : k₀ = k
      · subst h₀; simp [setKey, h]
      · simp only [setKey, if_neg h₀, lookupKey_cons]
        by_cases h₁ : k₀ = k' <;> simp [h₁, ih]

/-- Writing back the value a key already holds leaves the list unchanged. -/
theorem setKey_lookup_self {α : Type} (l : List (String × α)) (k : String) (v : α)
    (h : lookupKey l k = some v) : setKey l k v = l := by
  induction l with
  | nil => simp [lookupKey] at h
  | cons hd tl ih =>
      obtain ⟨k', v'⟩ := hd
      by_cases h' : k' = k
      · subst h'
        rw [lookupKey_cons, if_pos rfl] at h
        injection h with h
        subst h
        simp [setKey]
      · rw [lookupKey_cons, if_neg h'] at h
        simp [setKey, h', ih h]

theorem lookupKey_eraseKey_self {α : Type} (l : List (String × α)) (k : String)
    (hnd : (l.map Prod.fst).Nodup) : lookupKey (eraseKey l k) k = none := by
  induction l with
  | nil => simp [eraseKey]
  | cons hd tl ih =>
      obtain ⟨k', v'⟩ := hd
      simp only [List.map_cons, List.nodup_cons] at hnd
      by_cases h : k' = k
      · subst h
        simp only [eraseKey, if_pos rfl]
        cases hlk : lookupKey tl k' with
        | none => exact hlk
        | some v =>
            exfalso
            apply hnd.1
            clear ih hnd
            induction tl with
            | nil => simp [lookupKey] at hlk
            | cons hd' tl' ih' =>
                obtain ⟨k₀, v₀⟩ := hd'
                simp only [lookupKey_cons] at hlk
                by_cases h₀ : k₀ = k'
                · subst h₀; simp
                · simp only [if_neg h₀] at hlk
                  simp [ih' hlk]
      · simp [eraseKey, h, ih hnd.2]

theorem lookupKey_eraseKey_ne {α : Type} (l : List (String × α)) (k k' : String)
    (h : k ≠ k') : lookupKey (eraseKey l k) k' = lookupKey l k' := by
  induction l with
  | nil => simp [eraseKey]
  | cons hd tl ih =>
      obtain ⟨k₀, v₀⟩ := hd
      by_cases h₀ : k₀ = k
      · subst h₀; simp [eraseKey, h]
      · simp only [eraseKey, if_neg h₀, lookupKey_cons]
        by_cases h₁ : k₀ = k' <;> simp [h₁, ih]

theorem mem_keys_setKey {α : Type} (l : List (String × α)) (k k' : String) (v : α)
    (h : k' ∈ (setKey l k v).map Prod.fst) : k' ∈ l.map Prod.fst ∨ k' = k := by
  induction l with
  | nil =>
      simp only [setKey, List.map_cons, List.map_nil, List.mem_cons,
        List.not_mem_nil, or_false] at h
      exact Or.inr h
  | cons hd tl ih =>
      obtain ⟨k₀, v₀⟩ := hd
      by_cases h₀ : k₀ = k
      · simp only [setKey] at h
        rw [if_pos h₀] at h
        simp only [List.map_cons, List.mem_cons] at h
        rcases h with h | h
        · exact Or.inr h
        · refine Or.inl ?_
          simp only [List.map_cons, List.mem_cons]
          exact Or.inr h
      · simp only [setKey] at h
        rw [if_neg h₀] at h
        simp only [List.map_cons, List.mem_cons] at h
        rcases h with h | h
        · refine Or.inl ?_
          simp only [List.map_cons, List.mem_cons]
          exact Or.inl h
        · rcases ih h with h₁ | h₁
          · refine Or.inl ?_
            simp only [List.map_cons, List.mem_cons]
            exact Or.inr h₁
          · exact Or.inr h₁

theorem mem_keys_eraseKey {α : Type} (l : List (String × α)) (k k' : String)
    (h : k' ∈ (eraseKey l k).map Prod.fst) : k' ∈ l.map Prod.fst := by
  induction l with
  | nil => simp [eraseKey] at h
  | cons hd tl ih =>
      obtain ⟨k₀, v₀⟩ := hd
      by_cases h₀ : k₀ = k
      · simp only [eraseKey] at h
        rw [if_pos h₀] at h
        simp only [List.map_cons, List.mem_cons]
        exact Or.inr h
      · simp only [eraseKey] at h
        rw [if_neg h₀] at h
        simp only [List.map_cons, List.mem_cons] at h ⊢
        rcases h with h | h
        · exact Or.inl h
        · exact Or.inr (ih h)

theorem nodup_keys_setKey {α : Type} (l : List (String × α)) (k : String) (v : α)
    (hnd : (l.map Prod.fst).Nodup) : ((setKey l k v).map Prod.fst).Nodup := by
  induction l with
  | nil => simp [setKey]
  | cons hd tl ih =>
      obtain ⟨k', v'⟩ := hd
      simp only [List.map_cons, List.nodup_cons] at hnd
      by_cases h : k' = k
      · simp only [setKey]
        rw [if_pos h]
        simp only [List.map_cons, List.nodup_cons]
        exact ⟨h ▸ hnd.1, hnd.2⟩
      · simp only [setKey]
        rw [if_neg h]
        simp only [List.map_cons, List.nodup_cons]
        refine ⟨fun hmem => ?_, ih hnd.2⟩
        rcases mem_keys_setKey tl k k' v hmem with h₁ | h₁
        · exact hnd.1 h₁
        · exact h h₁

theorem nodup_keys_eraseKey {α : Type} (l : List (String × α)) (k : String)
    (hnd : (l.map Prod.fst).Nodup) : ((eraseKey l k).map Prod.fst).Nodup := by
  induction l with
  | nil => simp [eraseKey]
  | cons hd tl ih =>
      obtain ⟨k', v'⟩ := hd
      simp only [List.map_cons, List.nodup_cons] at hnd
      by_cases h : k' = k
      · simp only [eraseKey]
        rw [if_pos h]
        exact hnd.2
      · simp only [eraseKey]
        rw [if_neg h]
        simp only [List.map_cons, List.nodup_cons]
        exact ⟨fun hmem => hnd.1 (mem_keys_eraseKey tl k k' hmem), ih hnd.2⟩

/-! ## The sliding-window limiter (`src/rate_limiter.py`) -/

/-- State of `SlidingWindowRateLimiter`: `window_size` and `max_requests` are
set at construction; `users_history` maps a user id to its deque of
timestamps, oldest first. -/
structure SlidingWindowRateLimiter where
  window_size : ℚ
  max_requests : ℕ
  users_history : List (String × List ℚ)
deriving DecidableEq

namespace SlidingWindowRateLimiter

/-- `SlidingWindowRateLimiter(window_size, max_requests)`: the history starts
empty. -/
def init (window_size : ℚ) (max_requests : ℕ) : SlidingWindowRateLimiter :=
  ⟨window_size, max_requests, []⟩

/-- `_cleanup_window(user_id, current_time)`: drop from the front of the
user's deque every timestamp `< current_time - window_size`; if the deque
empties, delete the user from the dictionary. -/
def cleanup_window (s : SlidingWindowRateLimiter) (user_id : String)
    (current_time : ℚ) : SlidingWindowRateLimiter :=
  match lookupKey s.users_history user_id with
  | none => s
  | some dq =>
      let dq' := dq.dropWhile (fun ts => ts < current_time - s.window_size)
      if dq'.isEmpty then
        { s with users_history := eraseKey s.users_history user_id }
      else
        { s with users_history := setKey s.users_history user_id dq' }

/-- `can_send_message(user_id)` at instant `current_time`: clean up, then
allow iff the user is absent or its deque is shorter than `max_requests`.
Returns the result together with the state left behind by the cleanup. -/
def can_send_message (s : SlidingWindowRateLimiter) (user_id : String)
    (current_time : ℚ) : Bool × SlidingWindowRateLimiter :=
  let s' := cleanup_window s user_id current_time
  match lookupKey s'.users_history user_id with
  | none => (true, s')
  | some dq => (dq.length < s'.max_requests, s')

/-- `record_message(user_id)` at instant `current_time`: if allowed, append
the current instant to the user's deque (creating it when absent) and return
true; otherwise return false. -/
def record_message (s : SlidingWindowRateLimiter) (user_id : String)
    (current_time : ℚ) : Bool × SlidingWindowRateLimiter :=
  let r := can_send_message s user_id current_time
  if r.1 then
    let dq := (lookupKey r.2.users_history user_id).getD []
    (true, { r.2 with users_history := setKey r.2.users_history user_id (dq ++ [current_time]) })
  else
    (false, r.2)

/-- `time_until_next_allowed(user_id)` at instant `current_time`: clean up;
0 if absent or under the limit, otherwise
`max 0 (window_size - (current_time - oldest))`. (A present user always has
a non-empty deque after cleanup, so the `headD` default is never used.) -/
def time_until_next_allowed (s : SlidingWindowRateLimiter) (user_id : String)
    (current_time : ℚ) : ℚ × SlidingWindowRateLimiter :=
  let s' := cleanup_window s user_id current_time
  match lookupKey s'.users_history user_id with
  | none => (0, s')
  | some dq =>
      if dq.length < s'.max_requests then (0, s')
      else
        let oldest_message_time := dq.headD 0
        (max 0 (s'.window_size - (current_time - oldest_message_time)), s')

end SlidingWindowRateLimiter

/-! ## The throttling limiter (`src/rate_limiter_throttling.py`) -/

/-- State of `ThrottlingRateLimiter`: `min_interval` is set at construction;
`last_message_time` maps a user id to the instant of its last recorded
message. -/
structure ThrottlingRateLimiter where
  min_interval : ℚ
  last_message_time : List (String × ℚ)
deriving DecidableEq

namespace ThrottlingRateLimiter

/-- `ThrottlingRateLimiter(min_interval)`: the map starts empty. -/
def init (min_interval : ℚ) : ThrottlingRateLimiter :=
  ⟨min_interval, []⟩

/-- `can_send_message(user_id)` at instant `current_time`: true when the user
was never seen, else when `current_time - last_time ≥ min_interval`. Reads
the state only. -/
def can_send_message (s : ThrottlingRateLimiter) (user_id : String)
    (current_time : ℚ) : Bool :=
  match lookupKey s.last_message_time user_id with
  | none => true
  | some last_time => s.min_interval ≤ current_time - last_time

/-- `record_message(user_id)` at instant `current_time`: if allowed,
overwrite the user's last-message time with the current instant and return
true; otherwise return false. -/
def record_message (s : ThrottlingRateLimiter) (user_id : String)
    (current_time : ℚ) : Bool × ThrottlingRateLimiter :=
  if can_send_message s user_id current_time then
    (true, { s with last_message_time := setKey s.last_message_time user_id current_time })
  else
    (false, s)

/-- `time_until_next_allowed(user_id)` at instant `current_time`: 0 when the
user was never seen, else `max 0 (min_interval - (current_time - last_time))`.
Reads the state only. -/
def time_until_next_allowed (s : ThrottlingRateLimiter) (user_id : String)
    (current_time : ℚ) : ℚ :=
  match lookupKey s.last_message_time user_id with
  | none => 0
  | some last_time => max 0 (s.min_interval - (current_time - last_time))

end ThrottlingRateLimiter

/-! ## Call traces

A client interacts with a limiter through the three public operations; a
trace is a list of (operation, instant) pairs, and a clock is admissible
when the instants are non-decreasing along the trace. -/

/-- One public call: which operation, and for which user id. -/
inductive LimiterOp where
  | canSend (user_id : String)
  | record (user_id : String)
  | timeUntil (user_id : String)
deriving DecidableEq

/-- The instants of a trace are non-decreasing (monotone clock). -/
def TimesMono (tr : List (LimiterOp × ℚ)) : Prop :=
  List.Pairwise (fun a b => a ≤ b) (tr.map Prod.snd)

instance (tr : List (LimiterOp × ℚ)) : Decidable (TimesMono tr) := by
  unfold TimesMono
  infer_instance

/-- Effect of one public call on the sliding-window state. -/
def SWstep (s : SlidingWindowRateLimiter) (op : LimiterOp) (t : ℚ) :
    SlidingWindowRateLimiter :=
  match op with
  | .canSend uid => (s.can_send_message uid t).2
  | .record uid => (s.record_message uid t).2
  | .timeUntil uid => (s.time_until_next_allowed uid t).2

/-- Run a trace of public calls against the sliding-window limiter. -/
def SWrun (s : SlidingWindowRateLimiter) (tr : List (LimiterOp × ℚ)) :
    SlidingWindowRateLimiter :=
  tr.foldl (fun s p => SWstep s p.1 p.2) s

/-- Effect of one public call on the throttling state (the two read-only
operations leave it unchanged). -/
def TRstep (s : ThrottlingRateLimiter) (op : LimiterOp) (t : ℚ) :
    ThrottlingRateLimiter :=
  match op with
  | .canSend _ => s
  | .record uid => (s.record_message uid t).2
  | .timeUntil _ => s

/-- Run a trace of public calls against the throttling limiter. -/
def TRrun (s : ThrottlingRateLimiter) (tr : List (LimiterOp × ℚ)) :
    ThrottlingRateLimiter :=
  tr.foldl (fun s p => TRstep s p.1 p.2) s

example :
    (SlidingWindowRateLimiter.record_message (.init 10 1) "u" 0).1 = true := by
  norm_num [SlidingWindowRateLimiter.record_message, SlidingWindowRateLimiter.can_send_message,
    SlidingWindowRateLimiter.cleanup_window, SlidingWindowRateLimiter.init, lookupKey]

example :
    ((SlidingWindowRateLimiter.record_message (.init 10 1) "u" 0).2).users_history
      = [("u", [0])] := by
  norm_num [SlidingWindowRateLimiter.record_message, SlidingWindowRateLimiter.can_send_message,
    SlidingWindowRateLimiter.cleanup_window, SlidingWindowRateLimiter.init, lookupKey, setKey]

example :
    (SlidingWindowRateLimiter.can_send_message ⟨10, 1, [("u", [0])]⟩ "u" 5).1 = false := by
  norm_num [SlidingWindowRateLimiter.can_send_message,
    SlidingWindowRateLimiter.cleanup_window, lookupKey, setKey, List.dropWhile]

example :
    (SlidingWindowRateLimiter.time_until_next_allowed ⟨10, 1, [("u", [0])]⟩ "u" 5).1 = 5 := by
  norm_num [SlidingWindowRateLimiter.time_until_next_allowed,
    SlidingWindowRateLimiter.cleanup_window, lookupKey, setKey, List.dropWhile]

example :
    (SlidingWindowRateLimiter.can_send_message ⟨10, 1, [("u", [0])]⟩ "u" (101/10)).1 = true := by
  norm_num [SlidingWindowRateLimiter.can_send_message,
    SlidingWindowRateLimiter.cleanup_window, lookupKey, setKey, List.dropWhile]

/-! ## Structural lemmas about the sliding-window limiter -/

namespace SlidingWindowRateLimiter

theorem cleanup_window_of_none {s : SlidingWindowRateLimiter} {user_id : String}
    {current_time : ℚ} (h : lookupKey s.users_history user_id = none) :
    cleanup_window s user_id current_time = s := by
  unfold cleanup_window
  rw [h]

theorem cleanup_window_of_some {s : SlidingWindowRateLimiter} {user_id : String}
    {current_time : ℚ} {dq : List ℚ} (h : lookupKey s.users_history user_id = some dq) :
    cleanup_window s user_id current_time =
      if (dq.dropWhile (fun ts => ts < current_time - s.window_size)).isEmpty then
        { s with users_history := eraseKey s.users_history user_id }
      else
        { s with
            users_history := setKey s.users_history user_id
              (dq.dropWhile (fun ts => ts < current_time - s.window_size)) } := by
  unfold cleanup_window
  rw [h]

@[simp] theorem cleanup_window_window_size (s : SlidingWindowRateLimiter)
    (user_id : String) (current_time : ℚ) :
    (cleanup_window s user_id current_time).window_size = s.window_size := by
  cases h : lookupKey s.users_history user_id with
  | none => rw [cleanup_window_of_none h]
  | some dq =>
      rw [cleanup_window_of_some h]
      split <;> rfl

@[simp] theorem cleanup_window_max_requests (s : SlidingWindowRateLimiter)
    (user_id : String) (current_time : ℚ) :
    (cleanup_window s user_id current_time).max_requests = s.max_requests := by
  cases h : lookupKey s.users_history user_id with
  | none => rw [cleanup_window_of_none h]
  | some dq =>
      rw [cleanup_window_of_some h]
      split <;> rfl

@[simp] theorem can_send_message_snd (s : SlidingWindowRateLimiter)
    (user_id : String) (current_time : ℚ) :
    (can_send_message s user_id current_time).2 = cleanup_window s user_id current_time := by
  simp only [can_send_message]
  split <;> rfl

@[simp] theorem time_until_next_allowed_snd (s : SlidingWindowRateLimiter)
    (user_id : String) (current_time : ℚ) :
    (time_until_next_allowed s user_id current_time).2
      = cleanup_window s user_id current_time := by
  simp only [time_until_next_allowed]
  split
  · rfl
  · split <;> rfl

/-- The admission decision of `can_send_message`, read off the cleaned state. -/
theorem can_send_message_fst (s : SlidingWindowRateLimiter)
    (user_id : String) (current_time : ℚ) :
    (can_send_message s user_id current_time).1 =
      match lookupKey (cleanup_window s user_id current_time).users_history user_id with
      | none => true
      | some dq => decide (dq.length < s.max_requests) := by
  simp only [can_send_message]
  cases h : lookupKey (cleanup_window s user_id current_time).users_history user_id with
  | none => rfl
  | some dq =>
      simp only [cleanup_window_max_requests]

theorem record_message_of_true {s : SlidingWindowRateLimiter} {user_id : String}
    {current_time : ℚ} (h : (can_send_message s user_id current_time).1 = true) :
    record_message s user_id current_time =
      (true,
        { cleanup_window s user_id current_time with
            users_history := setKey
              (cleanup_window s user_id current_time).users_history user_id
              (((lookupKey (cleanup_window s user_id current_time).users_history
                  user_id).getD []) ++ [current_time]) }) := by
  simp only [record_message, h, if_true, can_send_message_snd]

theorem record_message_of_false {s : SlidingWindowRateLimiter} {user_id : String}
    {current_time : ℚ} (h : (can_send_message s user_id current_time).1 = false) :
    record_message s user_id current_time =
      (false, cleanup_window s user_id current_time) := by
  simp only [record_message, h, Bool.false_eq_true, if_false, can_send_message_snd]

end SlidingWindowRateLimiter

theorem dropWhile_idem {α : Type} (p : α → Bool) (l : List α) :
    (l.dropWhile p).dropWhile p = l.dropWhile p := by
  induction l with
  | nil => rfl
  | cons hd tl ih =>
      by_cases h : p hd
      · simp [List.dropWhile_cons, h, ih]
      · simp [List.dropWhile_cons, h]

theorem head_dropWhile_false {α : Type} (p : α → Bool) (l : List α) (a : α)
    (h : (l.dropWhile p).head? = some a) : p a = false := by
  induction l with
  | nil => simp [List.dropWhile] at h
  | cons hd tl ih =>
      by_cases h' : p hd
      · simp only [List.dropWhile_cons, h', if_true] at h
        exact ih h
      · simp only [List.dropWhile_cons, h', Bool.false_eq_true, if_false, List.head?_cons,
          Option.some.injEq] at h
        subst h
        simp [h']

namespace SlidingWindowRateLimiter

/-- Well-formedness of a reachable sliding-window state: the dictionary has
no duplicate keys, and every stored deque is non-empty and no longer than
`max max_requests 1`. -/
def SWInv (s : SlidingWindowRateLimiter) : Prop :=
  (s.users_history.map Prod.fst).Nodup ∧
  ∀ uid dq, lookupKey s.users_history uid = some dq →
    dq ≠ [] ∧ dq.length ≤ max s.max_requests 1

theorem SWInv_init (window_size : ℚ) (max_requests : ℕ) :
    SWInv (init window_size max_requests) := by
  constructor
  · simp [init]
  · intro uid dq h
    simp [init, lookupKey] at h

theorem SWInv_cleanup (s : SlidingWindowRateLimiter) (user_id : String)
    (current_time : ℚ) (hs : SWInv s) :
    SWInv (cleanup_window s user_id current_time) := by
  obtain ⟨hnd, hval⟩ := hs
  cases h : lookupKey s.users_history user_id with
  | none => rw [cleanup_window_of_none h]; exact ⟨hnd, hval⟩
  | some dq =>
      rw [cleanup_window_of_some h]
      split
      · refine ⟨nodup_keys_eraseKey _ _ hnd, ?_⟩
        intro uid dq' h'
        by_cases huid : user_id = uid
        · subst huid
          rw [lookupKey_eraseKey_self _ _ hnd] at h'
          exact absurd h' (Option.noConfusion)
        · rw [lookupKey_eraseKey_ne _ _ _ huid] at h'
          exact hval uid dq' h'
      · rename_i hne
        refine ⟨nodup_keys_setKey _ _ _ hnd, ?_⟩
        intro uid dq' h'
        by_cases huid : user_id = uid
        · subst huid
          rw [lookupKey_setKey_self] at h'
          injection h' with h'
          subst h'
          constructor
          · intro hempty
            rw [hempty] at hne
            simp at hne
          · calc (dq.dropWhile (fun ts => ts < current_time - s.window_size)).length
                ≤ dq.length := (List.dropWhile_sublist _).length_le
              _ ≤ max s.max_requests 1 := (hval user_id dq h).2
        · rw [lookupKey_setKey_ne _ _ _ _ huid] at h'
          exact hval uid dq' h'

theorem SWInv_record (s : SlidingWindowRateLimiter) (user_id : String)
    (current_time : ℚ) (hs : SWInv s) :
    SWInv (record_message s user_id current_time).2 := by
  have hclean := SWInv_cleanup s user_id current_time hs
  cases hcan : (can_send_message s user_id current_time).1 with
  | false => rw [record_message_of_false hcan]; exact hclean
  | true =>
      rw [record_message_of_true hcan]
      obtain ⟨hnd, hval⟩ := hclean
      refine ⟨nodup_keys_setKey _ _ _ hnd, ?_⟩
      intro uid dq' h'
      by_cases huid : user_id = uid
      · subst huid
        rw [lookupKey_setKey_self] at h'
        injection h' with h'
        subst h'
        constructor
        · simp
        · rw [can_send_message_fst] at hcan
          cases hlk : lookupKey (cleanup_window s user_id current_time).users_history
              user_id with
          | none =>
              dsimp only
              simp only [Option.getD_none, List.nil_append, List.length_cons,
                List.length_nil, cleanup_window_max_requests]
              exact le_max_right _ _
          | some dq0 =>
              rw [hlk] at hcan
              simp only [decide_eq_true_eq] at hcan
              dsimp only
              simp only [Option.getD_some, List.length_append, List.length_cons,
                List.length_nil, cleanup_window_max_requests]
              have hlen : dq0.length + (0 + 1) ≤ s.max_requests := by omega
              exact le_trans hlen (le_max_left _ _)
      · rw [lookupKey_setKey_ne _ _ _ _ huid] at h'
        have := hval uid dq' h'
        simpa using this

@[simp] theorem record_message_window_size (s : SlidingWindowRateLimiter)
    (user_id : String) (current_time : ℚ) :
    (record_message s user_id current_time).2.window_size = s.window_size := by
  cases hcan : (can_send_message s user_id current_time).1 with
  | false => rw [record_message_of_false hcan]; simp
  | true => rw [record_message_of_true hcan]; simp

@[simp] theorem record_message_max_requests (s : SlidingWindowRateLimiter)
    (user_id : String) (current_time : ℚ) :
    (record_message s user_id current_time).2.max_requests = s.max_requests := by
  cases hcan : (can_send_message s user_id current_time).1 with
  | false => rw [record_message_of_false hcan]; simp
  | true => rw [record_message_of_true hcan]; simp

theorem SWInv_step (s : SlidingWindowRateLimiter) (op : LimiterOp) (t : ℚ)
    (hs : SWInv s) : SWInv (SWstep s op t) := by
  cases op with
  | canSend uid =>
      simp only [SWstep, can_send_message_snd]
      exact SWInv_cleanup s uid t hs
  | record uid => exact SWInv_record s uid t hs
  | timeUntil uid =>
      simp only [SWstep, time_until_next_allowed_snd]
      exact SWInv_cleanup s uid t hs

@[simp] theorem SWstep_window_size (s : SlidingWindowRateLimiter) (op : LimiterOp) (t : ℚ) :
    (SWstep s op t).window_size = s.window_size := by
  cases op <;> simp [SWstep]

@[simp] theorem SWstep_max_requests (s : SlidingWindowRateLimiter) (op : LimiterOp) (t : ℚ) :
    (SWstep s op t).max_requests = s.max_requests := by
  cases op <;> simp [SWstep]

@[simp] theorem SWrun_nil (s : SlidingWindowRateLimiter) : SWrun s [] = s := rfl

@[simp] theorem SWrun_cons (s : SlidingWindowRateLimiter) (p : LimiterOp × ℚ)
    (tr : List (LimiterOp × ℚ)) : SWrun s (p :: tr) = SWrun (SWstep s p.1 p.2) tr := rfl

theorem SWrun_append (s : SlidingWindowRateLimiter) (tr₁ tr₂ : List (LimiterOp × ℚ)) :
    SWrun s (tr₁ ++ tr₂) = SWrun (SWrun s tr₁) tr₂ :=
  List.foldl_append _ _ _ _

theorem SWInv_run (s : SlidingWindowRateLimiter) (tr : List (LimiterOp × ℚ))
    (hs : SWInv s) : SWInv (SWrun s tr) := by
  induction tr generalizing s with
  | nil => exact hs
  | cons p tr ih => exact ih _ (SWInv_step s p.1 p.2 hs)

@[simp] theorem SWrun_window_size (s : SlidingWindowRateLimiter)
    (tr : List (LimiterOp × ℚ)) : (SWrun s tr).window_size = s.window_size := by
  induction tr generalizing s with
  | nil => rfl
  | cons p tr ih => rw [SWrun_cons, ih, SWstep_window_size]

@[simp] theorem SWrun_max_requests (s : SlidingWindowRateLimiter)
    (tr : List (LimiterOp × ℚ)) : (SWrun s tr).max_requests = s.max_requests := by
  induction tr generalizing s with
  | nil => rfl
  | cons p tr ih => rw [SWrun_cons, ih, SWstep_max_requests]

end SlidingWindowRateLimiter

/-! ## Structural lemmas about the throttling limiter -/

namespace ThrottlingRateLimiter

theorem throttle_record_of_true {s : ThrottlingRateLimiter} {user_id : String}
    {current_time : ℚ} (h : can_send_message s user_id current_time = true) :
    record_message s user_id current_time =
      (true, { s with
          last_message_time := setKey s.last_message_time user_id current_time }) := by
  simp only [record_message, h, if_true]

theorem throttle_record_of_false {s : ThrottlingRateLimiter} {user_id : String}
    {current_time : ℚ} (h : can_send_message s user_id current_time = false) :
    record_message s user_id current_time = (false, s) := by
  simp only [record_message, h, Bool.false_eq_true, if_false]

@[simp] theorem record_message_min_interval (s : ThrottlingRateLimiter)
    (user_id : String) (current_time : ℚ) :
    (record_message s user_id current_time).2.min_interval = s.min_interval := by
  cases h : can_send_message s user_id current_time with
  | false => rw [throttle_record_of_false h]
  | true => rw [throttle_record_of_true h]

/-- If a `record_message` call is admitted, the key's last-message time
afterwards is the instant of the call. -/
theorem record_message_true_lookup {s : ThrottlingRateLimiter} {user_id : String}
    {current_time : ℚ} (h : (record_message s user_id current_time).1 = true) :
    lookupKey (record_message s user_id current_time).2.last_message_time user_id
      = some current_time := by
  cases hcan : can_send_message s user_id current_time with
  | false => rw [throttle_record_of_false hcan] at h; simp at h
  | true =>
      rw [throttle_record_of_true hcan]
      exact lookupKey_setKey_self _ _ _

/-- If a `record_message` call is admitted for a key that was seen before,
the elapsed time since that key's stored instant is at least `min_interval`. -/
theorem record_message_true_spacing {s : ThrottlingRateLimiter} {user_id : String}
    {current_time last_time : ℚ}
    (h : (record_message s user_id current_time).1 = true)
    (hlk : lookupKey s.last_message_time user_id = some last_time) :
    s.min_interval ≤ current_time - last_time := by
  cases hcan : can_send_message s user_id current_time with
  | false => rw [throttle_record_of_false hcan] at h; simp at h
  | true =>
      unfold can_send_message at hcan
      rw [hlk] at hcan
      simpa using hcan

end ThrottlingRateLimiter

@[simp] theorem TRstep_min_interval (s : ThrottlingRateLimiter) (op : LimiterOp) (t : ℚ) :
    (TRstep s op t).min_interval = s.min_interval := by
  cases op <;> simp [TRstep]

@[simp] theorem TRrun_nil (s : ThrottlingRateLimiter) : TRrun s [] = s := rfl

@[simp] theorem TRrun_cons (s : ThrottlingRateLimiter) (p : LimiterOp × ℚ)
    (tr : List (LimiterOp × ℚ)) : TRrun s (p :: tr) = TRrun (TRstep s p.1 p.2) tr := rfl

theorem TRrun_append (s : ThrottlingRateLimiter) (tr₁ tr₂ : List (LimiterOp × ℚ)) :
    TRrun s (tr₁ ++ tr₂) = TRrun (TRrun s tr₁) tr₂ :=
  List.foldl_append _ _ _ _

@[simp] theorem TRrun_min_interval (s : ThrottlingRateLimiter)
    (tr : List (LimiterOp × ℚ)) : (TRrun s tr).min_interval = s.min_interval := by
  induction tr generalizing s with
  | nil => rfl
  | cons p tr ih => rw [TRrun_cons, ih, TRstep_min_interval]

/-- One step never decreases a key's stored last-message time below a bound
that also bounds the step's instant from below. -/
theorem TRstep_lookup_ge (s : ThrottlingRateLimiter) (op : LimiterOp) (t : ℚ)
    (user_id : String) (bound : ℚ) (ht : bound ≤ t) (last : ℚ)
    (hlk : lookupKey s.last_message_time user_id = some last) (hge : bound ≤ last) :
    ∃ last', lookupKey (TRstep s op t).last_message_time user_id = some last' ∧
      bound ≤ last' := by
  cases op with
  | canSend uid => exact ⟨last, hlk, hge⟩
  | timeUntil uid => exact ⟨last, hlk, hge⟩
  | record uid =>
      simp only [TRstep]
      cases hcan : ThrottlingRateLimiter.can_send_message s uid t with
      | false =>
          rw [ThrottlingRateLimiter.throttle_record_of_false hcan]
          exact ⟨last, hlk, hge⟩
      | true =>
          rw [ThrottlingRateLimiter.throttle_record_of_true hcan]
          by_cases huid : uid = user_id
          · subst huid
            exact ⟨t, lookupKey_setKey_self _ _ _, ht⟩
          · refine ⟨last, ?_, hge⟩
            rw [lookupKey_setKey_ne _ _ _ _ huid]
            exact hlk

/-- Running a trace whose instants all dominate `bound` keeps a key's stored
last-message time at or above `bound`. -/
theorem TRrun_lookup_ge (s : ThrottlingRateLimiter) (tr : List (LimiterOp × ℚ))
    (user_id : String) (bound : ℚ) (htr : ∀ p ∈ tr, bound ≤ p.2) (last : ℚ)
    (hlk : lookupKey s.last_message_time user_id = some last) (hge : bound ≤ last) :
    ∃ last', lookupKey (TRrun s tr).last_message_time user_id = some last' ∧
      bound ≤ last' := by
  induction tr generalizing s last with
  | nil => exact ⟨last, hlk, hge⟩
  | cons p tr ih =>
      obtain ⟨last', hlk', hge'⟩ :=
        TRstep_lookup_ge s p.1 p.2 user_id bound (htr p (List.mem_cons_self p tr)) last hlk hge
      rw [TRrun_cons]
      exact ih _ (fun q hq => htr q (List.mem_cons_of_mem p hq)) last' hlk' hge'

namespace SlidingWindowRateLimiter

/-- The wait time reported by `time_until_next_allowed`, read off the cleaned
state. -/
theorem time_until_next_allowed_fst (s : SlidingWindowRateLimiter)
    (user_id : String) (current_time : ℚ) :
    (time_until_next_allowed s user_id current_time).1 =
      match lookupKey (cleanup_window s user_id current_time).users_history user_id with
      | none => 0
      | some dq =>
          if dq.length < s.max_requests then 0
          else max 0 (s.window_size - (current_time - dq.headD 0)) := by
  simp only [time_until_next_allowed]
  cases h : lookupKey (cleanup_window s user_id current_time).users_history user_id with
  | none => rfl
  | some dq =>
      simp only [cleanup_window_max_requests, cleanup_window_window_size]
      split <;> rfl

end SlidingWindowRateLimiter

/-- Claim C3: for both limiters, in every state and at every instant,
`time_until_next_allowed` returns a non-negative duration, even when the
elapsed time is negative because the clock moved backward. -/
theorem wait_time_nonneg (sw : SlidingWindowRateLimiter) (st : ThrottlingRateLimiter)
    (user_id : String) (current_time : ℚ) :
    0 ≤ (sw.time_until_next_allowed user_id current_time).1 ∧
    0 ≤ st.time_until_next_allowed user_id current_time := by
  constructor
  · rw [SlidingWindowRateLimiter.time_until_next_allowed_fst]
    split
    · exact le_refl 0
    · split
      · exact le_refl 0
      · exact le_max_left 0 _
  · unfold ThrottlingRateLimiter.time_until_next_allowed
    split
    · exact le_refl 0
    · exact le_max_left 0 _

/-- Claim C4, counterexample: a sliding-window limiter constructed with
`max_requests = 0` admits the very first `record_message` call of a key,
because `can_send_message` returns true for a key absent from the history. -/
theorem zero_limit_admits_fresh_key :
    (SlidingWindowRateLimiter.record_message (.init 10 0) "u" 0).1 = true := by
  norm_num [SlidingWindowRateLimiter.record_message,
    SlidingWindowRateLimiter.can_send_message, SlidingWindowRateLimiter.cleanup_window,
    SlidingWindowRateLimiter.init, lookupKey]

/-- Claim C4 (amended): with `max_requests = 0`, a `record_message` call is
denied whenever the key is still present (has a surviving timestamp) after
cleanup at the current instant; only a key with no surviving history is
admitted. -/
theorem zero_limit_denies_present_key (s : SlidingWindowRateLimiter) (user_id : String)
    (current_time : ℚ) (dq : List ℚ) (hm : s.max_requests = 0)
    (hpresent : lookupKey (s.cleanup_window user_id current_time).users_history user_id
      = some dq) :
    (s.record_message user_id current_time).1 = false := by
  have hcan : (s.can_send_message user_id current_time).1 = false := by
    rw [SlidingWindowRateLimiter.can_send_message_fst, hpresent]
    simp [hm]
  rw [SlidingWindowRateLimiter.record_message_of_false hcan]

theorem zero_limit_denies_present_key_witness :
    (SlidingWindowRateLimiter.record_message ⟨10, 0, [("u", [5])]⟩ "u" 6).1 = false := by
  refine zero_limit_denies_present_key _ "u" 6 [5] rfl ?_
  norm_num [SlidingWindowRateLimiter.cleanup_window, lookupKey, setKey, List.dropWhile]

/-- Claim C2: for the fixed-interval limiter under a non-decreasing clock,
any two admitted `record_message` calls for the same key are separated in
time by at least `min_interval`. -/
theorem throttling_spacing (min_interval t1 t2 : ℚ) (u : String)
    (tr1 tr2 tr3 : List (LimiterOp × ℚ))
    (hmono : TimesMono
      (tr1 ++ (LimiterOp.record u, t1) :: (tr2 ++ (LimiterOp.record u, t2) :: tr3)))
    (h1 : (ThrottlingRateLimiter.record_message
        (TRrun (.init min_interval) tr1) u t1).1 = true)
    (h2 : (ThrottlingRateLimiter.record_message
        (TRrun (.init min_interval) (tr1 ++ (LimiterOp.record u, t1) :: tr2)) u t2).1
        = true) :
    min_interval ≤ t2 - t1 := by
  have hsplit : TRrun (ThrottlingRateLimiter.init min_interval)
      (tr1 ++ (LimiterOp.record u, t1) :: tr2) =
      TRrun ((ThrottlingRateLimiter.record_message
        (TRrun (ThrottlingRateLimiter.init min_interval) tr1) u t1).2) tr2 := by
    rw [TRrun_append, TRrun_cons]
    rfl
  have hlk1 := ThrottlingRateLimiter.record_message_true_lookup h1
  have htr2 : ∀ p ∈ tr2, t1 ≤ p.2 := by
    unfold TimesMono at hmono
    rw [List.map_append, List.map_cons] at hmono
    have hrest := ((List.pairwise_append).1 hmono).2.1
    have hall := (List.pairwise_cons.1 hrest).1
    intro p hp
    apply hall
    rw [List.map_append]
    exact List.mem_append_left _ (List.mem_map_of_mem Prod.snd hp)
  obtain ⟨last', hlk', hge'⟩ :=
    TRrun_lookup_ge _ tr2 u t1 htr2 t1 hlk1 (le_refl t1)
  rw [hsplit] at h2
  have hspace := ThrottlingRateLimiter.record_message_true_spacing h2 hlk'
  have hI : (TRrun ((ThrottlingRateLimiter.record_message
      (TRrun (ThrottlingRateLimiter.init min_interval) tr1) u t1).2) tr2).min_interval
      = min_interval := by
    rw [TRrun_min_interval, ThrottlingRateLimiter.record_message_min_interval,
      TRrun_min_interval]
    rfl
  rw [hI] at hspace
  linarith

theorem throttling_spacing_witness : (10 : ℚ) ≤ 10 - 0 := by
  refine throttling_spacing 10 0 10 "u" [] [] [] ?_ ?_ ?_
  · norm_num [TimesMono]
  · norm_num [ThrottlingRateLimiter.record_message,
      ThrottlingRateLimiter.can_send_message, ThrottlingRateLimiter.init, TRrun, lookupKey]
  · norm_num [ThrottlingRateLimiter.record_message,
      ThrottlingRateLimiter.can_send_message, ThrottlingRateLimiter.init, TRrun, TRstep,
      lookupKey, setKey, List.foldl]

/-- Claim C1, counterexample: with `max_requests = 0` the claim fails — after
one admitted `record_message` (a fresh key is always admitted), the key
stores one timestamp inside the window, exceeding `max_requests`. -/
theorem sliding_window_at_most_max_counterexample :
    ¬ ((((lookupKey (SWrun (.init 10 0) [(LimiterOp.record "u", 0)]).users_history
        "u").getD []).filter (fun ts => (0 : ℚ) - 10 ≤ ts)).length ≤
      (SWrun (.init 10 0) [(LimiterOp.record "u", 0)]).max_requests) := by
  norm_num [SWrun, SWstep, SlidingWindowRateLimiter.record_message,
    SlidingWindowRateLimiter.can_send_message, SlidingWindowRateLimiter.cleanup_window,
    SlidingWindowRateLimiter.init, lookupKey, setKey, List.foldl, List.filter]

/-- Claim C1 (amended): provided `max_requests ≥ 1` (the spec's data model
declares it a positive integer), for every key, every trace of public calls
with a non-decreasing clock, and every instant, the number of stored
timestamps within the window never exceeds `max_requests`. -/
theorem sliding_window_at_most_max (window_size : ℚ) (max_requests : ℕ)
    (hm : 1 ≤ max_requests) (tr : List (LimiterOp × ℚ)) (hmono : TimesMono tr)
    (u : String) (t : ℚ) (dq : List ℚ)
    (h : lookupKey (SWrun (.init window_size max_requests) tr).users_history u
      = some dq) :
    (dq.filter (fun ts => t - window_size ≤ ts)).length ≤ max_requests := by
  have hinv := SlidingWindowRateLimiter.SWInv_run _ tr
    (SlidingWindowRateLimiter.SWInv_init window_size max_requests)
  have hlen := (hinv.2 u dq h).2
  rw [SlidingWindowRateLimiter.SWrun_max_requests] at hlen
  calc (dq.filter (fun ts => t - window_size ≤ ts)).length
      ≤ dq.length := List.length_filter_le _ _
    _ ≤ max max_requests 1 := hlen
    _ = max_requests := max_eq_left hm

theorem sliding_window_at_most_max_witness :
    (([0] : List ℚ).filter (fun ts => (5 : ℚ) - 10 ≤ ts)).length ≤ 1 := by
  refine sliding_window_at_most_max 10 1 (le_refl 1) [(LimiterOp.record "u", 0)] ?_
    "u" 5 [0] ?_
  · norm_num [TimesMono]
  · norm_num [SWrun, SWstep, SlidingWindowRateLimiter.record_message,
      SlidingWindowRateLimiter.can_send_message, SlidingWindowRateLimiter.cleanup_window,
      SlidingWindowRateLimiter.init, lookupKey, setKey, List.foldl]

/-- Claim C7: every key present in a reachable sliding-window history has a
non-empty deque; and after a cleanup-performing public call (`can_send_message`
or `time_until_next_allowed`) at an instant past a key's entire history, the
key has no entry in the mapping. -/
theorem nonempty_entries_and_memory_bound :
    (∀ (window_size : ℚ) (max_requests : ℕ) (tr : List (LimiterOp × ℚ)) (u : String)
        (dq : List ℚ),
        lookupKey (SWrun (.init window_size max_requests) tr).users_history u = some dq →
        dq ≠ []) ∧
    (∀ (s : SlidingWindowRateLimiter) (u : String) (t : ℚ) (dq : List ℚ),
        (s.users_history.map Prod.fst).Nodup →
        lookupKey s.users_history u = some dq →
        (∀ ts ∈ dq, ts < t - s.window_size) →
        lookupKey ((s.can_send_message u t).2).users_history u = none ∧
        lookupKey ((s.time_until_next_allowed u t).2).users_history u = none) := by
  constructor
  · intro window_size max_requests tr u dq h
    have hinv := SlidingWindowRateLimiter.SWInv_run _ tr
      (SlidingWindowRateLimiter.SWInv_init window_size max_requests)
    exact (hinv.2 u dq h).1
  · intro s u t dq hnd hlk hstale
    have hclean : lookupKey ((s.cleanup_window u t).users_history) u = none := by
      rw [SlidingWindowRateLimiter.cleanup_window_of_some hlk]
      have hnil : dq.dropWhile (fun ts => ts < t - s.window_size) = [] := by
        rw [List.dropWhile_eq_nil_iff]
        intro x hx
        simpa using hstale x hx
      rw [hnil]
      simp only [List.isEmpty_nil, if_true]
      exact lookupKey_eraseKey_self _ _ hnd
    constructor
    · rw [SlidingWindowRateLimiter.can_send_message_snd]
      exact hclean
    · rw [SlidingWindowRateLimiter.time_until_next_allowed_snd]
      exact hclean

theorem nonempty_entries_and_memory_bound_witness :
    (([0] : List ℚ) ≠ []) ∧
    (lookupKey (((⟨10, 1, [("u", [0])]⟩ : SlidingWindowRateLimiter).can_send_message
        "u" 20).2).users_history "u" = none ∧
      lookupKey (((⟨10, 1, [("u", [0])]⟩ : SlidingWindowRateLimiter).time_until_next_allowed
        "u" 20).2).users_history "u" = none) := by
  constructor
  · exact nonempty_entries_and_memory_bound.1 10 1 [(LimiterOp.record "u", 0)] "u" [0]
      (by norm_num [SWrun, SWstep, SlidingWindowRateLimiter.record_message,
        SlidingWindowRateLimiter.can_send_message, SlidingWindowRateLimiter.cleanup_window,
        SlidingWindowRateLimiter.init, lookupKey, setKey, List.foldl])
  · exact nonempty_entries_and_memory_bound.2 ⟨10, 1, [("u", [0])]⟩ "u" 20 [0]
      (by simp) (by norm_num [lookupKey]) (by norm_num)

namespace SlidingWindowRateLimiter

/-- A denied `record_message` means the admission check itself failed. -/
theorem record_false_can_send_false {s : SlidingWindowRateLimiter} {user_id : String}
    {current_time : ℚ} (h : (record_message s user_id current_time).1 = false) :
    (can_send_message s user_id current_time).1 = false := by
  cases hcan : (can_send_message s user_id current_time).1 with
  | false => rfl
  | true => rw [record_message_of_true hcan] at h; simp at h

end SlidingWindowRateLimiter

/-- Claim C8, counterexample: with `max_requests = 0` a fresh key's first
`record_message` is admitted, leaving a deque of length 1 > 0 = `max_requests`
in a reachable state. -/
theorem seq_length_bound_counterexample :
    ¬ (((lookupKey (SWrun (.init 10 0) [(LimiterOp.record "u", 0)]).users_history
        "u").getD []).length ≤
      (SWrun (.init 10 0) [(LimiterOp.record "u", 0)]).max_requests) := by
  norm_num [SWrun, SWstep, SlidingWindowRateLimiter.record_message,
    SlidingWindowRateLimiter.can_send_message, SlidingWindowRateLimiter.cleanup_window,
    SlidingWindowRateLimiter.init, lookupKey, setKey, List.foldl]

/-- Claim C8 (amended): in every reachable sliding-window state each key's
deque has length at most `max max_requests 1` (hence at most `max_requests`
whenever `max_requests ≥ 1`); and a denied `record_message` appends nothing —
after a denied call every key's stored deque is no longer than before. -/
theorem seq_length_bound :
    (∀ (window_size : ℚ) (max_requests : ℕ) (tr : List (LimiterOp × ℚ)) (u : String)
        (dq : List ℚ),
        lookupKey (SWrun (.init window_size max_requests) tr).users_history u = some dq →
        dq.length ≤ max max_requests 1) ∧
    (∀ (s : SlidingWindowRateLimiter) (u k : String) (t : ℚ),
        (s.users_history.map Prod.fst).Nodup →
        (s.record_message u t).1 = false →
        ((lookupKey ((s.record_message u t).2).users_history k).getD []).length ≤
          ((lookupKey s.users_history k).getD []).length) := by
  constructor
  · intro window_size max_requests tr u dq h
    have hinv := SlidingWindowRateLimiter.SWInv_run _ tr
      (SlidingWindowRateLimiter.SWInv_init window_size max_requests)
    have hlen := (hinv.2 u dq h).2
    rwa [SlidingWindowRateLimiter.SWrun_max_requests] at hlen
  · intro s u k t hnd hrec
    have hcan := SlidingWindowRateLimiter.record_false_can_send_false hrec
    rw [SlidingWindowRateLimiter.record_message_of_false hcan]
    cases hlk : lookupKey s.users_history u with
    | none => rw [SlidingWindowRateLimiter.cleanup_window_of_none hlk]
    | some dq0 =>
        rw [SlidingWindowRateLimiter.cleanup_window_of_some hlk]
        by_cases hk : u = k
        · subst hk
          split
          · rw [lookupKey_eraseKey_self _ _ hnd]
            simp
          · rw [lookupKey_setKey_self, hlk]
            simp only [Option.getD_some]
            exact (List.dropWhile_sublist _).length_le
        · split
          · rw [lookupKey_eraseKey_ne _ _ _ hk]
          · rw [lookupKey_setKey_ne _ _ _ _ hk]

theorem seq_length_bound_witness :
    ([0] : List ℚ).length ≤ max 1 1 ∧
    ((lookupKey (((⟨10, 1, [("u", [0])]⟩ : SlidingWindowRateLimiter).record_message
        "u" 5).2).users_history "u").getD []).length ≤
      ((lookupKey ((⟨10, 1, [("u", [0])]⟩ :
        SlidingWindowRateLimiter)).users_history "u").getD []).length := by
  constructor
  · exact seq_length_bound.1 10 1 [(LimiterOp.record "u", 0)] "u" [0]
      (by norm_num [SWrun, SWstep, SlidingWindowRateLimiter.record_message,
        SlidingWindowRateLimiter.can_send_message, SlidingWindowRateLimiter.cleanup_window,
        SlidingWindowRateLimiter.init, lookupKey, setKey, List.foldl])
  · exact seq_length_bound.2 ⟨10, 1, [("u", [0])]⟩ "u" "u" 5 (by simp)
      (by norm_num [SlidingWindowRateLimiter.record_message,
        SlidingWindowRateLimiter.can_send_message, SlidingWindowRateLimiter.cleanup_window,
        lookupKey, setKey, List.dropWhile])

namespace SlidingWindowRateLimiter

/-- On a well-formed state (reachable states are), a denied `record_message`
leaves the sliding-window state exactly unchanged: the cleanup pass cannot
have removed anything, since the post-cleanup deque still meets the limit
while the pre-cleanup deque was within the invariant bound. -/
theorem record_false_no_mutation {s : SlidingWindowRateLimiter} (hinv : SWInv s)
    {user_id : String} {current_time : ℚ}
    (h : (record_message s user_id current_time).1 = false) :
    (record_message s user_id current_time).2 = s := by
  have hcan := record_false_can_send_false h
  rw [record_message_of_false hcan]
  rw [can_send_message_fst] at hcan
  cases hlk : lookupKey s.users_history user_id with
  | none => exact cleanup_window_of_none hlk
  | some dq =>
      rw [cleanup_window_of_some hlk] at hcan ⊢
      by_cases hempty :
        (dq.dropWhile (fun ts => ts < current_time - s.window_size)).isEmpty = true
      · rw [if_pos hempty] at hcan
        dsimp only at hcan
        rw [lookupKey_eraseKey_self _ _ hinv.1] at hcan
        simp at hcan
      · rw [if_neg hempty] at hcan ⊢
        dsimp only at hcan ⊢
        rw [lookupKey_setKey_self] at hcan
        dsimp only at hcan
        have hm : s.max_requests ≤
            (dq.dropWhile (fun ts => ts < current_time - s.window_size)).length := by
          have := of_decide_eq_false hcan
          omega
        have hone : 1 ≤
            (dq.dropWhile (fun ts => ts < current_time - s.window_size)).length := by
          have hnil : dq.dropWhile (fun ts => ts < current_time - s.window_size) ≠ [] := by
            intro hnil
            exact hempty (by rw [hnil]; rfl)
          rcases List.exists_cons_of_ne_nil hnil with ⟨a, tl, heq⟩
          rw [heq]
          simp
        have hlen : (dq.dropWhile (fun ts => ts < current_time - s.window_size)).length
            = dq.length := by
          have hle : (dq.dropWhile (fun ts => ts < current_time - s.window_size)).length
              ≤ dq.length := (List.dropWhile_sublist _).length_le
          have hub := (hinv.2 user_id dq hlk).2
          have hmax : max s.max_requests 1 ≤
              (dq.dropWhile (fun ts => ts < current_time - s.window_size)).length :=
            max_le hm hone
          omega
        have heq : dq.dropWhile (fun ts => ts < current_time - s.window_size) = dq :=
          (List.dropWhile_sublist _).eq_of_length hlen
        rw [heq, setKey_lookup_self _ _ _ hlk]

end SlidingWindowRateLimiter

/-- Claim C5, counterexample: the throttling limiter with `min_interval = 0`
(a constructor value the spec admits) can return true from `record_message`
while leaving the state exactly unchanged — the admitted call rewrites the
key's last-message time with an equal value — refuting the "mutates iff it
returns true" equivalence on a reachable state. -/
theorem mutation_iff_admitted_counterexample :
    ((TRrun (.init 0) [(LimiterOp.record "u", 5)]).record_message "u" 5).1 = true ∧
    ((TRrun (.init 0) [(LimiterOp.record "u", 5)]).record_message "u" 5).2 =
      TRrun (.init 0) [(LimiterOp.record "u", 5)] := by
  constructor <;>
    norm_num [TRrun, TRstep, ThrottlingRateLimiter.record_message,
      ThrottlingRateLimiter.can_send_message, ThrottlingRateLimiter.init,
      lookupKey, setKey, List.foldl]

/-- Claim C5 (amended): a denied `record_message` performs no mutation — for
the throttling limiter on every state, and for the sliding-window limiter on
every reachable state, the state after a call returning false equals the
state before. (The converse direction of the original claim fails: an
admitted call still writes the key's entry, but the write may coincide with
the previous state, as the counterexample shows.) -/
theorem mutation_only_if_admitted :
    (∀ (s : ThrottlingRateLimiter) (u : String) (t : ℚ),
        (s.record_message u t).1 = false → (s.record_message u t).2 = s) ∧
    (∀ (window_size : ℚ) (max_requests : ℕ) (tr : List (LimiterOp × ℚ))
        (u : String) (t : ℚ),
        ((SWrun (.init window_size max_requests) tr).record_message u t).1 = false →
        ((SWrun (.init window_size max_requests) tr).record_message u t).2 =
          SWrun (.init window_size max_requests) tr) := by
  constructor
  · intro s u t h
    cases hcan : ThrottlingRateLimiter.can_send_message s u t with
    | false => rw [ThrottlingRateLimiter.throttle_record_of_false hcan]
    | true => rw [ThrottlingRateLimiter.throttle_record_of_true hcan] at h; simp at h
  · intro window_size max_requests tr u t h
    exact SlidingWindowRateLimiter.record_false_no_mutation
      (SlidingWindowRateLimiter.SWInv_run _ tr
        (SlidingWindowRateLimiter.SWInv_init window_size max_requests)) h

theorem mutation_only_if_admitted_witness :
    ((⟨10, [("u", 0)]⟩ : ThrottlingRateLimiter).record_message "u" 5).2 =
      (⟨10, [("u", 0)]⟩ : ThrottlingRateLimiter) ∧
    ((SWrun (.init 10 1) [(LimiterOp.record "u", 0)]).record_message "u" 5).2 =
      SWrun (.init 10 1) [(LimiterOp.record "u", 0)] := by
  constructor
  · exact mutation_only_if_admitted.1 ⟨10, [("u", 0)]⟩ "u" 5
      (by norm_num [ThrottlingRateLimiter.record_message,
        ThrottlingRateLimiter.can_send_message, lookupKey])
  · exact mutation_only_if_admitted.2 10 1 [(LimiterOp.record "u", 0)] "u" 5
      (by norm_num [SWrun, SWstep, SlidingWindowRateLimiter.record_message,
        SlidingWindowRateLimiter.can_send_message, SlidingWindowRateLimiter.cleanup_window,
        SlidingWindowRateLimiter.init, lookupKey, setKey, List.foldl, List.dropWhile])

/-- Claim C6, counterexample: in a reachable sliding-window state, at the
exact window boundary `time_until_next_allowed` returns 0 while
`can_send_message` still returns false — the timestamp equal to
`now - window_size` survives the strict cleanup comparison. -/
theorem zero_wait_admit_counterexample :
    ((SWrun (.init 10 1) [(LimiterOp.record "u", 0)]).time_until_next_allowed
      "u" 10).1 = 0 ∧
    ((SWrun (.init 10 1) [(LimiterOp.record "u", 0)]).can_send_message "u" 10).1
      = false := by
  constructor <;>
    norm_num [SWrun, SWstep, SlidingWindowRateLimiter.record_message,
      SlidingWindowRateLimiter.can_send_message,
      SlidingWindowRateLimiter.time_until_next_allowed,
      SlidingWindowRateLimiter.cleanup_window, SlidingWindowRateLimiter.init,
      lookupKey, setKey, List.foldl, List.dropWhile]

/-- Claim C6 (amended): a zero wait time implies `can_send_message` is true —
unconditionally for the throttling limiter, and for the sliding-window
limiter except in the boundary case where the key's oldest surviving
timestamp is exactly `now - window_size` (retained by the strict `<` of
cleanup, yet contributing zero remaining wait). -/
theorem zero_wait_admit :
    (∀ (s : ThrottlingRateLimiter) (u : String) (t : ℚ),
        s.time_until_next_allowed u t = 0 → s.can_send_message u t = true) ∧
    (∀ (s : SlidingWindowRateLimiter) (u : String) (t : ℚ),
        (s.users_history.map Prod.fst).Nodup →
        (s.time_until_next_allowed u t).1 = 0 →
        (s.can_send_message u t).1 = true ∨
        ∃ dq, lookupKey ((s.cleanup_window u t).users_history) u = some dq ∧
          dq.head? = some (t - s.window_size)) := by
  constructor
  · intro s u t h
    unfold ThrottlingRateLimiter.time_until_next_allowed at h
    unfold ThrottlingRateLimiter.can_send_message
    cases hlk : lookupKey s.last_message_time u with
    | none => rfl
    | some last_time =>
        rw [hlk] at h
        have hle : s.min_interval - (t - last_time) ≤ 0 := max_eq_left_iff.1 h
        have : s.min_interval ≤ t - last_time := by linarith
        simp [this]
  · intro s u t hnd h
    rw [SlidingWindowRateLimiter.time_until_next_allowed_fst] at h
    cases hlk : lookupKey ((s.cleanup_window u t).users_history) u with
    | none =>
        left
        rw [SlidingWindowRateLimiter.can_send_message_fst, hlk]
    | some dq =>
        rw [hlk] at h
        dsimp only at h
        by_cases hunder : dq.length < s.max_requests
        · left
          rw [SlidingWindowRateLimiter.can_send_message_fst, hlk]
          simpa using hunder
        · rw [if_neg hunder] at h
          right
          refine ⟨dq, rfl, ?_⟩
          have hle : s.window_size - (t - dq.headD 0) ≤ 0 := max_eq_left_iff.1 h
          have hd_le : dq.headD 0 ≤ t - s.window_size := by linarith
          have hdq : dq ≠ [] ∧ dq = dq.dropWhile
              (fun ts => ts < t - s.window_size) := by
            cases hlk0 : lookupKey s.users_history u with
            | none =>
                rw [SlidingWindowRateLimiter.cleanup_window_of_none hlk0, hlk0] at hlk
                exact absurd hlk (by simp)
            | some dq0 =>
                rw [SlidingWindowRateLimiter.cleanup_window_of_some hlk0] at hlk
                by_cases hempty : (dq0.dropWhile
                    (fun ts => ts < t - s.window_size)).isEmpty = true
                · rw [if_pos hempty] at hlk
                  dsimp only at hlk
                  rw [lookupKey_eraseKey_self _ _ hnd] at hlk
                  exact absurd hlk (by simp)
                · rw [if_neg hempty] at hlk
                  dsimp only at hlk
                  rw [lookupKey_setKey_self] at hlk
                  injection hlk with hlk
                  subst hlk
                  refine ⟨fun hnil => hempty (by rw [hnil]; rfl), (dropWhile_idem _ _).symm⟩
          obtain ⟨hnil, hself⟩ := hdq
          rcases List.exists_cons_of_ne_nil hnil with ⟨a, tl, hcons⟩
          have hhead : dq.head? = some a := by rw [hcons]; rfl
          have hheadD : dq.headD 0 = a := by rw [hcons]; rfl
          have hfail : (decide (a < t - s.window_size)) = false := by
            apply head_dropWhile_false (fun ts => ts < t - s.window_size) dq
            rw [← hself]
            exact hhead
          have hge : t - s.window_size ≤ a := by
            have := of_decide_eq_false hfail
            linarith [not_lt.1 this]
          have : a = t - s.window_size := le_antisymm (hheadD ▸ hd_le) hge
          rw [hhead, this]

theorem zero_wait_admit_witness :
    (ThrottlingRateLimiter.init 10).can_send_message "u" 0 = true ∧
    (((SlidingWindowRateLimiter.init 10 1).can_send_message "u" 0).1 = true ∨
      ∃ dq, lookupKey (((SlidingWindowRateLimiter.init 10 1).cleanup_window
          "u" 0).users_history) "u" = some dq ∧
        dq.head? = some ((0 : ℚ) - 10)) := by
  constructor
  · exact zero_wait_admit.1 (ThrottlingRateLimiter.init 10) "u" 0
      (by norm_num [ThrottlingRateLimiter.time_until_next_allowed,
        ThrottlingRateLimiter.init, lookupKey])
  · exact zero_wait_admit.2 (SlidingWindowRateLimiter.init 10 1) "u" 0
      (by simp [SlidingWindowRateLimiter.init])
      (by norm_num [SlidingWindowRateLimiter.time_until_next_allowed,
        SlidingWindowRateLimiter.cleanup_window, SlidingWindowRateLimiter.init, lookupKey])

namespace SlidingWindowRateLimiter

/-- Cleanup is idempotent on a well-formed dictionary: a second pass at the
same instant finds nothing more to drop. -/
theorem cleanup_window_idem (s : SlidingWindowRateLimiter) (user_id : String)
    (current_time : ℚ) (hnd : (s.users_history.map Prod.fst).Nodup) :
    cleanup_window (cleanup_window s user_id current_time) user_id current_time
      = cleanup_window s user_id current_time := by
  cases hlk : lookupKey s.users_history user_id with
  | none => rw [cleanup_window_of_none hlk, cleanup_window_of_none hlk]
  | some dq =>
      rw [cleanup_window_of_some hlk]
      by_cases hempty :
        (dq.dropWhile (fun ts => ts < current_time - s.window_size)).isEmpty = true
      · rw [if_pos hempty]
        apply cleanup_window_of_none
        dsimp only
        exact lookupKey_eraseKey_self _ _ hnd
      · rw [if_neg hempty]
        have hlk1 : lookupKey ({ s with
            users_history := setKey s.users_history user_id
              (dq.dropWhile (fun ts => ts < current_time - s.window_size)) } :
            SlidingWindowRateLimiter).users_history user_id
            = some (dq.dropWhile (fun ts => ts < current_time - s.window_size)) :=
          lookupKey_setKey_self _ _ _
        rw [cleanup_window_of_some hlk1]
        dsimp only
        rw [dropWhile_idem]
        rw [if_neg hempty]
        rw [setKey_lookup_self _ _ _ hlk1]

end SlidingWindowRateLimiter

namespace SlidingWindowRateLimiter

/-- A second `can_send_message` on the state left by a cleanup-performing
call repeats the first call's result and leaves the state fixed. -/
theorem can_send_message_cleanup (s : SlidingWindowRateLimiter) (user_id : String)
    (current_time : ℚ) (hnd : (s.users_history.map Prod.fst).Nodup) :
    can_send_message (cleanup_window s user_id current_time) user_id current_time
      = can_send_message s user_id current_time := by
  rw [Prod.ext_iff]
  constructor
  · rw [can_send_message_fst, can_send_message_fst,
      cleanup_window_idem s user_id current_time hnd, cleanup_window_max_requests]
  · rw [can_send_message_snd, can_send_message_snd,
      cleanup_window_idem s user_id current_time hnd]

/-- A second `time_until_next_allowed` on the state left by a
cleanup-performing call repeats the first call's result and leaves the state
fixed. -/
theorem time_until_next_allowed_cleanup (s : SlidingWindowRateLimiter)
    (user_id : String) (current_time : ℚ)
    (hnd : (s.users_history.map Prod.fst).Nodup) :
    time_until_next_allowed (cleanup_window s user_id current_time) user_id current_time
      = time_until_next_allowed s user_id current_time := by
  rw [Prod.ext_iff]
  constructor
  · rw [time_until_next_allowed_fst, time_until_next_allowed_fst,
      cleanup_window_idem s user_id current_time hnd, cleanup_window_max_requests,
      cleanup_window_window_size]
  · rw [time_until_next_allowed_snd, time_until_next_allowed_snd,
      cleanup_window_idem s user_id current_time hnd]

end SlidingWindowRateLimiter

/-- Claim C9: read-only checks are idempotent: repeating `can_send_message`
or `time_until_next_allowed` at the same instant with no intervening
`record_message` returns the same result as the first call and leaves the
state it produced fixed — for the throttling limiter the reads do not touch
the state at all. -/
theorem read_only_idempotent :
    (∀ (s : ThrottlingRateLimiter) (u : String) (t : ℚ),
        TRstep s (.canSend u) t = s ∧ TRstep s (.timeUntil u) t = s) ∧
    (∀ (s : SlidingWindowRateLimiter) (u : String) (t : ℚ),
        (s.users_history.map Prod.fst).Nodup →
        (s.can_send_message u t).2.can_send_message u t = s.can_send_message u t ∧
        (s.time_until_next_allowed u t).2.time_until_next_allowed u t
          = s.time_until_next_allowed u t ∧
        (s.time_until_next_allowed u t).2.can_send_message u t = s.can_send_message u t ∧
        (s.can_send_message u t).2.time_until_next_allowed u t
          = s.time_until_next_allowed u t) := by
  constructor
  · intro s u t
    exact ⟨rfl, rfl⟩
  · intro s u t hnd
    refine ⟨?_, ?_, ?_, ?_⟩
    · rw [SlidingWindowRateLimiter.can_send_message_snd]
      exact SlidingWindowRateLimiter.can_send_message_cleanup s u t hnd
    · rw [SlidingWindowRateLimiter.time_until_next_allowed_snd]
      exact SlidingWindowRateLimiter.time_until_next_allowed_cleanup s u t hnd
    · rw [SlidingWindowRateLimiter.time_until_next_allowed_snd]
      exact SlidingWindowRateLimiter.can_send_message_cleanup s u t hnd
    · rw [SlidingWindowRateLimiter.can_send_message_snd]
      exact SlidingWindowRateLimiter.time_until_next_allowed_cleanup s u t hnd

theorem read_only_idempotent_witness :
    (TRstep ⟨10, [("u", 0)]⟩ (.canSend "u") 5 = (⟨10, [("u", 0)]⟩ : ThrottlingRateLimiter) ∧
      TRstep ⟨10, [("u", 0)]⟩ (.timeUntil "u") 5
        = (⟨10, [("u", 0)]⟩ : ThrottlingRateLimiter)) ∧
    (((⟨10, 1, [("u", [0])]⟩ : SlidingWindowRateLimiter).can_send_message
        "u" 5).2.can_send_message "u" 5
      = (⟨10, 1, [("u", [0])]⟩ : SlidingWindowRateLimiter).can_send_message "u" 5 ∧
      ((⟨10, 1, [("u", [0])]⟩ : SlidingWindowRateLimiter).time_until_next_allowed
        "u" 5).2.time_until_next_allowed "u" 5
      = (⟨10, 1, [("u", [0])]⟩ : SlidingWindowRateLimiter).time_until_next_allowed "u" 5 ∧
      ((⟨10, 1, [("u", [0])]⟩ : SlidingWindowRateLimiter).time_until_next_allowed
        "u" 5).2.can_send_message "u" 5
      = (⟨10, 1, [("u", [0])]⟩ : SlidingWindowRateLimiter).can_send_message "u" 5 ∧
      ((⟨10, 1, [("u", [0])]⟩ : SlidingWindowRateLimiter).can_send_message
        "u" 5).2.time_until_next_allowed "u" 5
      = (⟨10, 1, [("u", [0])]⟩ : SlidingWindowRateLimiter).time_until_next_allowed "u" 5) :=
  ⟨read_only_idempotent.1 ⟨10, [("u", 0)]⟩ "u" 5,
   read_only_idempotent.2 ⟨10, 1, [("u", [0])]⟩ "u" 5 (by simp)⟩

namespace SlidingWindowRateLimiter

/-- On a well-formed dictionary, a key found after cleanup holds exactly the
non-empty remainder of its pre-cleanup deque. -/
theorem lookup_cleanup_some_elim {s : SlidingWindowRateLimiter} {user_id : String}
    {current_time : ℚ} {dq : List ℚ}
    (hnd : (s.users_history.map Prod.fst).Nodup)
    (hlk : lookupKey (cleanup_window s user_id current_time).users_history user_id
      = some dq) :
    ∃ dq0, lookupKey s.users_history user_id = some dq0 ∧
      dq = dq0.dropWhile (fun ts => ts < current_time - s.window_size) ∧ dq ≠ [] := by
  cases hlk0 : lookupKey s.users_history user_id with
  | none =>
      rw [cleanup_window_of_none hlk0, hlk0] at hlk
      exact absurd hlk (by simp)
  | some dq0 =>
      rw [cleanup_window_of_some hlk0] at hlk
      by_cases hempty :
        (dq0.dropWhile (fun ts => ts < current_time - s.window_size)).isEmpty = true
      · rw [if_pos hempty] at hlk
        dsimp only at hlk
        rw [lookupKey_eraseKey_self _ _ hnd] at hlk
        exact absurd hlk (by simp)
      · rw [if_neg hempty] at hlk
        dsimp only at hlk
        rw [lookupKey_setKey_self] at hlk
        injection hlk with hlk
        subst hlk
        exact ⟨dq0, rfl, rfl, fun hnil => hempty (by rw [hnil]; rfl)⟩

end SlidingWindowRateLimiter

/-- Claim C10: provided every stored timestamp for the key is at most the
current instant and the configured duration is non-negative,
`time_until_next_allowed` returns at most `window_size` for the
sliding-window limiter and at most `min_interval` for the throttling
limiter. -/
theorem wait_time_upper_bound :
    (∀ (s : SlidingWindowRateLimiter) (u : String) (t : ℚ),
        (s.users_history.map Prod.fst).Nodup →
        0 ≤ s.window_size →
        (∀ dq, lookupKey s.users_history u = some dq → ∀ ts ∈ dq, ts ≤ t) →
        (s.time_until_next_allowed u t).1 ≤ s.window_size) ∧
    (∀ (s : ThrottlingRateLimiter) (u : String) (t : ℚ),
        0 ≤ s.min_interval →
        (∀ last, lookupKey s.last_message_time u = some last → last ≤ t) →
        s.time_until_next_allowed u t ≤ s.min_interval) := by
  constructor
  · intro s u t hnd hw hts
    rw [SlidingWindowRateLimiter.time_until_next_allowed_fst]
    cases hlk : lookupKey ((s.cleanup_window u t).users_history) u with
    | none => exact hw
    | some dq =>
        dsimp only
        by_cases hunder : dq.length < s.max_requests
        · rw [if_pos hunder]
          exact hw
        · rw [if_neg hunder]
          obtain ⟨dq0, hlk0, hdrop, hnil⟩ :=
            SlidingWindowRateLimiter.lookup_cleanup_some_elim hnd hlk
          rcases List.exists_cons_of_ne_nil hnil with ⟨a, tl, hcons⟩
          have hheadD : dq.headD 0 = a := by rw [hcons]; rfl
          have hamem : a ∈ dq0 := by
            have : a ∈ dq := by rw [hcons]; exact List.mem_cons_self a tl
            rw [hdrop] at this
            exact (List.dropWhile_sublist _).subset this
          have hat : a ≤ t := hts dq0 hlk0 a hamem
          rw [hheadD]
          exact max_le hw (by linarith)
  · intro s u t hI hts
    unfold ThrottlingRateLimiter.time_until_next_allowed
    cases hlk : lookupKey s.last_message_time u with
    | none => exact hI
    | some last =>
        have := hts last hlk
        exact max_le hI (by linarith)

theorem wait_time_upper_bound_witness :
    ((⟨10, 1, []⟩ : SlidingWindowRateLimiter).time_until_next_allowed "u" 5).1 ≤ 10 ∧
    (⟨10, []⟩ : ThrottlingRateLimiter).time_until_next_allowed "u" 5 ≤ 10 :=
  ⟨wait_time_upper_bound.1 ⟨10, 1, []⟩ "u" 5 (by simp) (by norm_num)
      (by intro dq h; simp [lookupKey] at h),
   wait_time_upper_bound.2 ⟨10, []⟩ "u" 5 (by norm_num)
      (by intro last h; simp [lookupKey] at h)⟩
